import Mathlib

/-!
Windowed read-only file mapping (`libaegisub/common/file_mapping.cpp`).

A shallow embedding of `agi::read_file_mapping::read` and of the pieces of
state it works on, of the constructors of `file_mapping` and
`read_file_mapping` and of the destructor of `file_mapping`, followed by
theorems about them.

Conventions of the embedding

* `uint64_t` values are natural numbers below `two64`; every arithmetic
  operation the source performs in `uint64_t` is reduced modulo `two64`
  at the place where the source performs it.
* `size_t` is `8 * sizeof_size_t` bits wide; the source tests
  `sizeof(size_t) == 4`, so `sizeof_size_t = 4` is the narrow branch and
  `sizeof_size_t = 8` the wide one.
* Addresses (`char *`) are integers.
* `boost::interprocess::mapped_region` is an external capability: its
  constructor is a parameter `os` that, given the file offset and the size
  of the view, either fails (`none`, the `interprocess_exception`) or gives
  the base address of the new view.
* A call of `read` yields an `Outcome`: the returned pointer or the thrown
  exception, the state of the reader after the call, and the list of
  mapping-constructor calls that were made.
-/

namespace agi

/-! ## Machine integers -/

/-- The number of `uint64_t` values, `2 ^ 64`. -/
def two64 : Nat := 18446744073709551616

/-- The conversion `static_cast<uint64_t>(x)` of a signed 64-bit value. -/
def to_uint64 (x : Int) : Nat := (x % (two64 : Int)).toNat

/-- The value `std::numeric_limits<size_t>::max()`. -/
def size_t_max (sizeof_size_t : Nat) : Nat := 2 ^ (8 * sizeof_size_t) - 1

/-- The conversion `static_cast<size_t>(x)` of an unsigned value. -/
def to_size_t (sizeof_size_t : Nat) (x : Nat) : Nat := x % 2 ^ (8 * sizeof_size_t)

/-- The subtraction `a - b` of two `uint64_t` values. -/
def sub64 (a b : Nat) : Nat := (a + two64 - b) % two64

/-- The constant `~0xFFFFFULL`; the `int` constant `~0xFFFFF` converted to
`uint64_t` by sign extension has the same value. -/
def mask_1MB : Nat := 0xFFFFFFFFFFF00000

/-! ## The file and the memory a mapped view gives access to -/

/-- One byte of data. -/
abbrev Byte := Fin 256

/-- The file on disk: `size` bytes, byte `i` being `byte i` for `i < size`. -/
structure File where
  size : Nat
  byte : Nat → Byte

/-- Byte `i` of the file, if the file has one. -/
def File.get? (f : File) (i : Nat) : Option Byte :=
  if i < f.size then some (f.byte i) else none

/-- What `read` uses of a `boost::interprocess::mapped_region`:
`get_address()`, `get_size()`, and the file offset the view was created at
(the constructor argument; the view shows the file from there). -/
structure mapped_region where
  address : Int
  size : Nat
  offset : Nat
deriving DecidableEq, Repr

/-- The file offset seen at address `p` through the view, if `p` lies in
`[address, address + size)`. -/
def mapped_region.viewed (r : mapped_region) (p : Int) : Option Nat :=
  if r.address ≤ p ∧ p < r.address + (r.size : Int) then
    some (r.offset + (p - r.address).toNat)
  else none

/-- The byte found at address `p` while `region` is the live view. -/
def deref (f : File) (region : Option mapped_region) (p : Int) : Option Byte :=
  match region with
  | none => none
  | some r =>
    match r.viewed p with
    | none => none
    | some i => f.get? i

/-- The mapping capability: `os start size` is the result of constructing
`mapped_region(file, read_only, start, size)`. -/
abbrev MapOracle := Nat → Nat → Option Int

/-! ## The reader -/

/-- Modelled from the spec: the class declaration (`file_mapping.h`) is not
among the sources. The data model gives the reader the total file size, an
optional mapped region, and the offset at which that region begins; they are
the members `file_size`, `region` and `mapping_start` that `read` uses, the
first and the last as `uint64_t` values. -/
structure read_file_mapping where
  file_size : Nat
  region : Option mapped_region
  mapping_start : Nat
deriving DecidableEq, Repr

/-- The exceptions `read` throws: `agi::InternalError`, `std::bad_alloc`,
`agi::fs::FileSystemUnknownError`; and the two further ones the constructor
of `file_mapping` throws: `agi::fs::FileNotFound` and `agi::fs::ReadDenied`. -/
inductive Exception where
  | InternalError
  | bad_alloc
  | FileSystemUnknownError
  | FileNotFound
  | ReadDenied
deriving DecidableEq, Repr

instance : DecidableEq (Except Exception Int) := fun x y =>
  match x, y with
  | .ok a, .ok b =>
    if h : a = b then isTrue (congrArg Except.ok h)
    else isFalse (fun h2 => h (Except.ok.inj h2))
  | .error a, .error b =>
    if h : a = b then isTrue (congrArg Except.error h)
    else isFalse (fun h2 => h (Except.error.inj h2))
  | .ok _, .error _ => isFalse (fun h => Except.noConfusion h)
  | .error _, .ok _ => isFalse (fun h => Except.noConfusion h)

/-- The observable result of one call of `read`. -/
structure Outcome where
  result : Except Exception Int
  self : read_file_mapping
  maps : List (Nat × Nat)

/-- The test of line 88: the current mapping can be used. -/
def current_mapping_covers (self : read_file_mapping) (offset length : Nat) : Bool :=
  match self.region with
  | none => false
  | some r =>
    decide (offset ≥ self.mapping_start) &&
      decide ((offset + length) % two64 ≤ (self.mapping_start + r.size) % two64)

/-- Lines 91 to 101: the new `mapping_start` and the new `length`. -/
def remap_window (sizeof_size_t file_size offset length : Nat) : Nat × Nat :=
  if sizeof_size_t = 4 then
    let mapping_start := offset &&& mask_1MB
    let length := (length + to_size_t sizeof_size_t (sub64 offset mapping_start)) % two64
    let length := min (max 0x1000000 (((length + 0xFFFFF) % two64) &&& mask_1MB))
      (sub64 file_size mapping_start)
    (mapping_start, length)
  else
    (0, file_size)

/-- The member function `read_file_mapping::read`; `length` is a `uint64_t`
value. Line 84 rejects the request; line 88 looks for a current mapping that
covers it and line 89 returns into that mapping; otherwise lines 91 to 101
compute the window and store the new `mapping_start`, line 103 checks the size
of the window, line 107 constructs the new region and stores it if the
construction did not throw, and line 113 returns into the new region. -/
def read (sizeof_size_t : Nat) (os : MapOracle) (self : read_file_mapping)
    (s_offset : Int) (length : Nat) : Outcome :=
  let offset := to_uint64 s_offset
  if (offset + length) % two64 > self.file_size then
    ⟨.error .InternalError, self, []⟩
  else
    match (if current_mapping_covers self offset length then self.region else none) with
    | some r => ⟨.ok (r.address + (offset : Int) - (self.mapping_start : Int)), self, []⟩
    | none =>
      let w := remap_window sizeof_size_t self.file_size offset length
      let self1 : read_file_mapping := { self with mapping_start := w.1 }
      if w.2 > size_t_max sizeof_size_t then
        ⟨.error .bad_alloc, self1, []⟩
      else
        let size := to_size_t sizeof_size_t w.2
        match os w.1 size with
        | none => ⟨.error .FileSystemUnknownError, self1, [(w.1, size)]⟩
        | some a =>
          ⟨.ok (a + (offset : Int) - (w.1 : Int)),
            { self1 with region := some ⟨a, size, w.1⟩ }, [(w.1, size)]⟩

/-- Modelled from the spec: the member initialisers are in the class
declaration (`file_mapping.h`), which is not among the sources. A reader right
after construction over a file of `file_size` bytes has no region yet (the
region is absent before the first read) and `mapping_start = 0`. -/
def fresh (file_size : Nat) : read_file_mapping := ⟨file_size, none, 0⟩

/-! ## Runs of several calls -/

/-- One call of `read` together with the behaviour of the mapping capability
during that call. -/
structure Call where
  os : MapOracle
  s_offset : Int
  length : Nat

/-- The outcome of performing the call `c` in state `self`. -/
def step (sizeof_size_t : Nat) (self : read_file_mapping) (c : Call) : Outcome :=
  read sizeof_size_t c.os self c.s_offset c.length

/-- The state after performing the calls one after the other. -/
def run (sizeof_size_t : Nat) (self : read_file_mapping) : List Call → read_file_mapping
  | [] => self
  | c :: cs => run sizeof_size_t (step sizeof_size_t self c).self cs

/-- The results of the calls, in order. -/
def results (sizeof_size_t : Nat) (self : read_file_mapping) :
    List Call → List (Except Exception Int)
  | [] => []
  | c :: cs =>
    (step sizeof_size_t self c).result :: results sizeof_size_t (step sizeof_size_t self c).self cs

/-- A mapping capability that always succeeds, at base address `a`. -/
def os_ok (a : Int) : MapOracle := fun _ _ => some a

/-- A mapping capability that always fails. -/
def os_fail : MapOracle := fun _ _ => none

/-- Mebibytes. -/
def MiB (n : Nat) : Nat := n * 1048576

/-- A file whose byte `i` is the number of the mebibyte `i` lies in. -/
def sample_file (size : Nat) : File := ⟨size, fun i => Fin.ofNat (i / 1048576)⟩

/-- Whether a call ended in `FileSystemUnknownError`: the mapping attempt
was made and failed. -/
def is_mapping_failure : Except Exception Int → Bool
  | .error .FileSystemUnknownError => true
  | _ => false

/-- Whether a call was abandoned inside the remap, after line 92: it ended
in `std::bad_alloc` or in `FileSystemUnknownError`. -/
def is_remap_failure : Except Exception Int → Bool
  | .error .FileSystemUnknownError => true
  | .error .bad_alloc => true
  | _ => false

/-! ## Runs used as examples, and the invariant of a run -/

/-- The region, when there is one, is the view of the file that starts at
`mapping_start`. -/
def region_at_mapping_start (self : read_file_mapping) : Prop :=
  ∀ r, self.region = some r → r.offset = self.mapping_start

/-- The two calls of the 50 MiB example. -/
def example_calls : List Call :=
  [⟨os_ok 4096, 0, 10⟩, ⟨os_ok 8192, 20971520, 100⟩]

/-- A 5 GiB run on the narrow branch: a small read at the start of the file,
then a request of `2 ^ 32` bytes at 100 MiB, which is inside the file and is
refused with `std::bad_alloc` before any mapping is attempted. -/
def oversize_calls : List Call :=
  [⟨os_ok 4096, 0, 10⟩, ⟨os_ok 4096, 104857600, 4294967296⟩]

/-- The 50 MiB example with the second mapping failing. -/
def failing_calls : List Call :=
  [⟨os_ok 4096, 0, 10⟩, ⟨os_fail, 20971520, 100⟩]

/-! ## The file handle and the construction of the reader -/

/-- The value `ipcdetail::invalid_file()` of boost: the handle that an
unsuccessful open returns. -/
def invalid_file : Int := -1

/-- The class `file_mapping`: the native handle it holds. -/
structure file_mapping where
  handle : Int
deriving DecidableEq, Repr

/-- The error codes of `Windows.h` that the constructor names. The labels
of a `switch` are distinct values. -/
structure win32_codes where
  ERROR_FILE_NOT_FOUND : Int
  ERROR_PATH_NOT_FOUND : Int
  ERROR_ACCESS_DENIED : Int
  distinct : ERROR_ACCESS_DENIED ≠ ERROR_FILE_NOT_FOUND ∧
    ERROR_ACCESS_DENIED ≠ ERROR_PATH_NOT_FOUND

/-- The values of `ENOENT`, `EACCES` and `EIO` in `errno.h`. The labels of a
`switch` are distinct values. -/
structure errno_codes where
  ENOENT_code : Int
  EACCES_code : Int
  EIO_code : Int
  distinct : ENOENT_code ≠ EACCES_code ∧ ENOENT_code ≠ EIO_code ∧ EACCES_code ≠ EIO_code

/-- Lines 36 to 49 and 64: the constructor of `file_mapping` under `_WIN32`.
`handle` is what `CreateFileW` returned and `last_error` what `GetLastError()`
gives. -/
def file_mapping.constructor_win32 (codes : win32_codes) (handle last_error : Int) :
    Except Exception file_mapping :=
  if handle = invalid_file then
    if last_error = codes.ERROR_FILE_NOT_FOUND ∨ last_error = codes.ERROR_PATH_NOT_FOUND then
      .error .FileNotFound
    else if last_error = codes.ERROR_ACCESS_DENIED then
      .error .ReadDenied
    else
      .error .FileSystemUnknownError
  else
    .ok ⟨handle⟩

/-- Lines 51 to 64: the constructor of `file_mapping` without `_WIN32`.
`handle` is what `ipcdetail::open_existing_file` returned and `errno_value` the
value of `errno`. The `switch` has three labels and no `default`: with any
other value control leaves the `switch` and the constructor returns. -/
def file_mapping.constructor_posix (codes : errno_codes) (handle errno_value : Int) :
    Except Exception file_mapping :=
  if handle = invalid_file then
    if errno_value = codes.ENOENT_code then
      .error .FileNotFound
    else if errno_value = codes.EACCES_code then
      .error .ReadDenied
    else if errno_value = codes.EIO_code then
      .error .FileSystemUnknownError
    else
      .ok ⟨handle⟩
  else
    .ok ⟨handle⟩

/-- Lines 66 to 70: the destructor of `file_mapping`, as the list of the
handles it passes to `ipcdetail::close_file`. -/
def file_mapping.destructor (self : file_mapping) : List Int :=
  if self.handle ≠ invalid_file then [self.handle] else []

/-- Lines 72 to 78: the constructor of `read_file_mapping`. `file` is the
outcome of constructing the member `file` (an exception of that constructor
leaves this one). `query` is the size query `ipcdetail::get_file_size`: the
flag it returns and the content of the variable `size` after the call. The
source does not look at the flag. The other members keep their initial values,
those of `fresh`. -/
def read_file_mapping.constructor (file : Except Exception file_mapping)
    (query : Bool × Int) : Except Exception read_file_mapping :=
  match file with
  | .error e => .error e
  | .ok _ => .ok { fresh 0 with file_size := to_uint64 query.2 }

/-- The values of the three codes on Linux. -/
def linux_errno : errno_codes := ⟨2, 13, 5, by decide⟩

/-- The values of the three codes in the Windows API. -/
def windows_codes : win32_codes := ⟨2, 3, 5, by decide⟩

/-! ## The window in the words of the specification -/

/-- The window of a narrow platform as the specification words it, over the
natural numbers: `mapping_start` is `offset` aligned down to the 1 MiB boundary
at or below it; the candidate length is `length` extended by the distance from
the aligned start to `offset`, rounded up to the next 1 MiB boundary, then
clamped to at least 16 MiB and to at most `file_size - mapping_start`. -/
def spec_window (file_size offset length : Nat) : Nat × Nat :=
  let mapping_start := offset - offset % 2 ^ 20
  let candidate := length + (offset - mapping_start)
  let rounded := 2 ^ 20 * ((candidate + (2 ^ 20 - 1)) / 2 ^ 20)
  (mapping_start, min (max (2 ^ 24) rounded) (file_size - mapping_start))

/-! ## Counting the mappings of a run -/

/-- Whether the call created a mapping: it made a mapping call and returned
a pointer. -/
def Outcome.created (o : Outcome) : Bool :=
  match o.result with
  | .ok _ => !o.maps.isEmpty
  | .error _ => false

/-- The number of mappings created by the calls of a run. -/
def mappings_created (sizeof_size_t : Nat) (self : read_file_mapping) : List Call → Nat
  | [] => 0
  | c :: cs =>
    (if (step sizeof_size_t self c).created then 1 else 0)
      + mappings_created sizeof_size_t (step sizeof_size_t self c).self cs

/-- A run on the wide branch over a 50 MiB file: a request past the end, a
request whose mapping fails, two requests that are served, and a request
whose end wraps around. -/
def wide_calls : List Call :=
  [⟨os_ok 4096, 52428800, 1⟩, ⟨os_fail, 0, 10⟩, ⟨os_ok 4096, 0, 10⟩,
    ⟨os_ok 8192, 20971520, 100⟩, ⟨os_ok 8192, -1, 1⟩]

/-! ## Arithmetic of the narrow branch -/

theorem to_uint64_lt (x : Int) : to_uint64 x < two64 := by
  unfold to_uint64 two64
  omega

theorem land_mask_1MB (x : Nat) (hx : x < two64) :
    x &&& mask_1MB = 1048576 * (x / 1048576) := by
  apply Nat.eq_of_testBit_eq
  intro i
  have hm : mask_1MB = 2 ^ 20 * (2 ^ 44 - 1) := by decide
  have h20 : (1048576 : Nat) = 2 ^ 20 := by norm_num
  rw [Nat.testBit_and, hm, h20, Nat.testBit_mul_pow_two, Nat.testBit_mul_pow_two,
    Nat.testBit_two_pow_sub_one, ← Nat.shiftRight_eq_div_pow, Nat.testBit_shiftRight]
  by_cases h : 20 ≤ i
  · by_cases h2 : i - 20 < 44
    · simp [h, h2]
    · have hi : 64 ≤ i := by omega
      have : x.testBit i = false := by
        apply Nat.testBit_lt_two_pow
        calc x < 2 ^ 64 := by simpa [two64] using hx
          _ ≤ 2 ^ i := Nat.pow_le_pow_right (by norm_num) hi
      simp [h, h2, this]
  · simp [h]

/-- The narrow branch in plain arithmetic, for a request inside a file of
fewer than `2 ^ 63` bytes. -/
theorem remap_window_narrow (file_size offset length : Nat)
    (hfs : file_size < 2 ^ 63) (hin : offset + length ≤ file_size) :
    remap_window 4 file_size offset length =
      (1048576 * (offset / 1048576),
        min (max 16777216 (1048576 * ((length + offset % 1048576 + 1048575) / 1048576)))
          (file_size - 1048576 * (offset / 1048576))) := by
  have ho : offset < two64 := by unfold two64; omega
  have h1 : sub64 offset (1048576 * (offset / 1048576)) = offset % 1048576 := by
    unfold sub64 two64; omega
  have h2 : to_size_t 4 (offset % 1048576) = offset % 1048576 := by
    unfold to_size_t; norm_num; omega
  have h3 : (length + offset % 1048576) % two64 = length + offset % 1048576 := by
    unfold two64; omega
  have h4 : (length + offset % 1048576 + 1048575) % two64
      = length + offset % 1048576 + 1048575 := by
    unfold two64; omega
  have h5 : length + offset % 1048576 + 1048575 < two64 := by unfold two64; omega
  have h6 : sub64 file_size (1048576 * (offset / 1048576))
      = file_size - 1048576 * (offset / 1048576) := by
    unfold sub64 two64; omega
  simp only [remap_window, if_true, land_mask_1MB offset ho, h1, h2, h3]
  norm_num only [h4, land_mask_1MB _ h5, h6]

/-- The wide branch. -/
theorem remap_window_wide (file_size offset length : Nat) :
    remap_window 8 file_size offset length = (0, file_size) := by
  simp [remap_window]

/-! ## The three ways through `read` -/

/-- Line 84 and 85: the request is rejected and nothing else happens. -/
theorem read_beyond_end (sizeof_size_t : Nat) (os : MapOracle) (self : read_file_mapping)
    (s_offset : Int) (length : Nat)
    (h : (to_uint64 s_offset + length) % two64 > self.file_size) :
    read sizeof_size_t os self s_offset length = ⟨.error .InternalError, self, []⟩ := by
  simp [read, h]

/-- Line 88 and 89: the current mapping is used. -/
theorem read_current (sizeof_size_t : Nat) (os : MapOracle) (self : read_file_mapping)
    (s_offset : Int) (length : Nat) (r : mapped_region)
    (h : (to_uint64 s_offset + length) % two64 ≤ self.file_size)
    (hr : self.region = some r)
    (hc : current_mapping_covers self (to_uint64 s_offset) length = true) :
    read sizeof_size_t os self s_offset length =
      ⟨.ok (r.address + (to_uint64 s_offset : Int) - (self.mapping_start : Int)), self, []⟩ := by
  have h1 : ¬ (to_uint64 s_offset + length) % two64 > self.file_size := by omega
  simp [read, h1, hc, hr]

/-- Lines 91 to 113: the remap. -/
theorem read_remap (sizeof_size_t : Nat) (os : MapOracle) (self : read_file_mapping)
    (s_offset : Int) (length : Nat)
    (h : (to_uint64 s_offset + length) % two64 ≤ self.file_size)
    (hc : current_mapping_covers self (to_uint64 s_offset) length = false) :
    read sizeof_size_t os self s_offset length =
      (let w := remap_window sizeof_size_t self.file_size (to_uint64 s_offset) length
       let self1 : read_file_mapping := { self with mapping_start := w.1 }
       if w.2 > size_t_max sizeof_size_t then
         ⟨.error .bad_alloc, self1, []⟩
       else
         match os w.1 (to_size_t sizeof_size_t w.2) with
         | none =>
           ⟨.error .FileSystemUnknownError, self1, [(w.1, to_size_t sizeof_size_t w.2)]⟩
         | some a =>
           ⟨.ok (a + (to_uint64 s_offset : Int) - (w.1 : Int)),
             { self1 with region := some ⟨a, to_size_t sizeof_size_t w.2, w.1⟩ },
             [(w.1, to_size_t sizeof_size_t w.2)]⟩) := by
  have h1 : ¬ (to_uint64 s_offset + length) % two64 > self.file_size := by omega
  simp [read, h1, hc]

/-- When the current mapping covers the request there is a current mapping. -/
theorem covers_region (self : read_file_mapping) (offset length : Nat)
    (hc : current_mapping_covers self offset length = true) :
    ∃ r, self.region = some r ∧ self.mapping_start ≤ offset ∧
      (offset + length) % two64 ≤ (self.mapping_start + r.size) % two64 := by
  unfold current_mapping_covers at hc
  cases hr : self.region with
  | none => simp [hr] at hc
  | some r =>
    simp [hr] at hc
    exact ⟨r, rfl, hc.1, hc.2⟩

/-- A call that makes a mapping call is a remap of an accepted request. -/
theorem maps_remap (sizeof_size_t : Nat) (os : MapOracle) (self : read_file_mapping)
    (s_offset : Int) (length : Nat) (m : Nat × Nat)
    (hm : m ∈ (read sizeof_size_t os self s_offset length).maps) :
    (to_uint64 s_offset + length) % two64 ≤ self.file_size ∧
      current_mapping_covers self (to_uint64 s_offset) length = false := by
  by_cases h : (to_uint64 s_offset + length) % two64 > self.file_size
  · rw [read_beyond_end _ _ _ _ _ h] at hm
    simp at hm
  · have h1 : (to_uint64 s_offset + length) % two64 ≤ self.file_size := by omega
    refine ⟨h1, ?_⟩
    cases hc : current_mapping_covers self (to_uint64 s_offset) length with
    | false => rfl
    | true =>
      obtain ⟨r, hr, -, -⟩ := covers_region _ _ _ hc
      rw [read_current _ _ _ _ _ r h1 hr hc] at hm
      simp at hm

/-! ## The fast path -/

/-- C3. Fast path: in a reader state with a region present whose window end
`mapping_start + region.size` is a 64-bit offset, an in-range request with
`offset >= mapping_start` and `offset + length <= mapping_start + region.size`
returns exactly `region.base + (offset - mapping_start)`, performs no mapping
call, and leaves the whole state (region, `mapping_start`, `file_size`)
unchanged; on either branch and whatever the mapping capability would do. -/
theorem C3_fast_path (sizeof_size_t : Nat) (os : MapOracle) (self : read_file_mapping)
    (r : mapped_region) (s_offset : Int) (length : Nat)
    (hr : self.region = some r)
    (hfs : self.file_size < two64)
    (hwin : self.mapping_start + r.size < two64)
    (hin : to_uint64 s_offset + length ≤ self.file_size)
    (hlo : self.mapping_start ≤ to_uint64 s_offset)
    (hhi : to_uint64 s_offset + length ≤ self.mapping_start + r.size) :
    (read sizeof_size_t os self s_offset length).result
        = .ok (r.address + ((to_uint64 s_offset - self.mapping_start : Nat) : Int)) ∧
      (read sizeof_size_t os self s_offset length).maps = [] ∧
      (read sizeof_size_t os self s_offset length).self = self := by
  have h1 : (to_uint64 s_offset + length) % two64 = to_uint64 s_offset + length :=
    Nat.mod_eq_of_lt (by omega)
  have h2 : (self.mapping_start + r.size) % two64 = self.mapping_start + r.size :=
    Nat.mod_eq_of_lt hwin
  have hc : current_mapping_covers self (to_uint64 s_offset) length = true := by
    simp [current_mapping_covers, hr, h1, h2, hlo, hhi]
  rw [read_current _ _ _ _ _ r (by omega) hr hc]
  refine ⟨?_, rfl, rfl⟩
  rw [Nat.cast_sub hlo, add_sub_assoc]

/-- An instance of C3: the window `[0, 16 MiB)` of a 50 MiB file serves the
request `(1 MiB, 100)`. -/
theorem C3_fast_path_witness :
    (read 4 os_fail ⟨MiB 50, some ⟨4096, MiB 16, 0⟩, 0⟩ (MiB 1) 100).result
        = .ok (4096 + ((to_uint64 (MiB 1) - 0 : Nat) : Int)) ∧
      (read 4 os_fail ⟨MiB 50, some ⟨4096, MiB 16, 0⟩, 0⟩ (MiB 1) 100).maps = [] ∧
      (read 4 os_fail ⟨MiB 50, some ⟨4096, MiB 16, 0⟩, 0⟩ (MiB 1) 100).self
        = ⟨MiB 50, some ⟨4096, MiB 16, 0⟩, 0⟩ :=
  C3_fast_path 4 os_fail ⟨MiB 50, some ⟨4096, MiB 16, 0⟩, 0⟩ ⟨4096, MiB 16, 0⟩ (MiB 1) 100
    rfl (by decide) (by decide) (by decide) (by decide) (by decide)

/-- What a call that makes a mapping call does, in terms of the window
computed by lines 91 to 101. -/
theorem read_maps (sizeof_size_t : Nat) (os : MapOracle) (self : read_file_mapping)
    (s_offset : Int) (length : Nat) (start size : Nat)
    (hm : (start, size) ∈ (read sizeof_size_t os self s_offset length).maps) :
    (remap_window sizeof_size_t self.file_size (to_uint64 s_offset) length).2
        ≤ size_t_max sizeof_size_t ∧
      start = (remap_window sizeof_size_t self.file_size (to_uint64 s_offset) length).1 ∧
      size = to_size_t sizeof_size_t
        (remap_window sizeof_size_t self.file_size (to_uint64 s_offset) length).2 ∧
      (read sizeof_size_t os self s_offset length).maps = [(start, size)] ∧
      (read sizeof_size_t os self s_offset length).self.mapping_start = start ∧
      (read sizeof_size_t os self s_offset length).self.file_size = self.file_size ∧
      ∀ p, (read sizeof_size_t os self s_offset length).result = .ok p →
        ∃ a, os start size = some a ∧
          (read sizeof_size_t os self s_offset length).self.region = some ⟨a, size, start⟩ ∧
          p = a + (to_uint64 s_offset : Int) - (start : Int) := by
  obtain ⟨h1, hc⟩ := maps_remap _ _ _ _ _ _ hm
  rw [read_remap _ _ _ _ _ h1 hc] at hm ⊢
  generalize remap_window sizeof_size_t self.file_size (to_uint64 s_offset) length = w at hm ⊢
  simp only at hm ⊢
  by_cases hle : w.2 > size_t_max sizeof_size_t
  · rw [if_pos hle] at hm
    simp at hm
  · rw [if_neg hle] at hm ⊢
    cases ho : os w.1 (to_size_t sizeof_size_t w.2) with
    | none =>
      rw [ho] at hm
      simp only [List.mem_singleton, Prod.mk.injEq] at hm
      obtain ⟨hs1, hs2⟩ := hm
      subst hs1 hs2
      refine ⟨by omega, rfl, rfl, rfl, rfl, rfl, ?_⟩
      intro p hp
      simp at hp
    | some a =>
      rw [ho] at hm
      simp only [List.mem_singleton, Prod.mk.injEq] at hm
      obtain ⟨hs1, hs2⟩ := hm
      subst hs1 hs2
      refine ⟨by omega, rfl, rfl, rfl, rfl, rfl, ?_⟩
      intro p hp
      simp only [Except.ok.injEq] at hp
      exact ⟨a, ho, rfl, hp.symm⟩

/-- C6. On the narrow branch (`sizeof(size_t) == 4`), for an in-range request
on a file of fewer than `2 ^ 63` bytes, every mapping call `(start, size)` that
`read` makes is for a window with: `start` a multiple of `2 ^ 20`;
`start <= offset < start + 2 ^ 20`; `size >= min(16 MiB, file_size - start)`;
`start + size <= file_size`. The call leaves `mapping_start = start`, and when
it returns a pointer the installed region is the view `(start, size)`. -/
theorem C6_narrow_window (os : MapOracle) (self : read_file_mapping)
    (s_offset : Int) (length : Nat) (start size : Nat)
    (hfs : self.file_size < 2 ^ 63)
    (hin : to_uint64 s_offset + length ≤ self.file_size)
    (hm : (start, size) ∈ (read 4 os self s_offset length).maps) :
    1048576 ∣ start ∧
      start ≤ to_uint64 s_offset ∧ to_uint64 s_offset < start + 1048576 ∧
      min 16777216 (self.file_size - start) ≤ size ∧
      start + size ≤ self.file_size ∧
      (read 4 os self s_offset length).self.mapping_start = start ∧
      ∀ p, (read 4 os self s_offset length).result = .ok p →
        ∃ a, (read 4 os self s_offset length).self.region = some ⟨a, size, start⟩ := by
  obtain ⟨hle, hs1, hs2, -, hms, -, hp⟩ := read_maps _ _ _ _ _ _ _ hm
  rw [remap_window_narrow _ _ _ hfs hin] at hle hs1 hs2
  simp only at hle hs1 hs2
  have hmax : size_t_max 4 = 4294967295 := by norm_num [size_t_max]
  rw [hmax] at hle
  have hcast : ∀ x, x ≤ 4294967295 → to_size_t 4 x = x := by
    intro x hx
    unfold to_size_t
    apply Nat.mod_eq_of_lt
    norm_num
    omega
  rw [hcast _ hle] at hs2
  generalize (length + to_uint64 s_offset % 1048576 + 1048575) / 1048576 = k at hs2 hle
  have hq1 : 1048576 * (to_uint64 s_offset / 1048576) ≤ to_uint64 s_offset :=
    Nat.mul_div_le _ _
  have hq2 : to_uint64 s_offset < 1048576 * (to_uint64 s_offset / 1048576) + 1048576 :=
    Nat.lt_mul_div_succ _ (by norm_num)
  rw [← hs1] at hq1 hq2 hs2
  have hz1 : min 16777216 (self.file_size - start) ≤ size := by
    rw [hs2]
    exact min_le_min (le_max_left _ _) le_rfl
  have hz2 : size ≤ self.file_size - start := by
    rw [hs2]
    exact min_le_right _ _
  have hz3 : start + size ≤ self.file_size := by
    clear hs1 hs2 hle hz1 hp hm hms hfs hq2
    omega
  refine ⟨⟨to_uint64 s_offset / 1048576, hs1⟩, hq1, hq2, hz1, hz3, hms, ?_⟩
  intro p hp1
  obtain ⟨a, -, ha, -⟩ := hp p hp1
  exact ⟨a, ha⟩

/-- A witness of C6: the second request of the 50 MiB example. -/
theorem C6_narrow_window_witness :
    1048576 ∣ 20971520 ∧
      20971520 ≤ to_uint64 20971520 ∧ to_uint64 20971520 < 20971520 + 1048576 ∧
      min 16777216 ((fresh 52428800).file_size - 20971520) ≤ 16777216 ∧
      20971520 + 16777216 ≤ (fresh 52428800).file_size ∧
      (read 4 (os_ok 4096) (fresh 52428800) 20971520 100).self.mapping_start = 20971520 ∧
      ∀ p, (read 4 (os_ok 4096) (fresh 52428800) 20971520 100).result = .ok p →
        ∃ a, (read 4 (os_ok 4096) (fresh 52428800) 20971520 100).self.region
          = some ⟨a, 16777216, 20971520⟩ :=
  C6_narrow_window (os_ok 4096) (fresh 52428800) 20971520 100 20971520 16777216
    (by decide) (by decide) (by decide)

/-- A value that fits `size_t` is not changed by the conversion to it. -/
theorem to_size_t_of_le (sizeof_size_t x : Nat) (h : x ≤ size_t_max sizeof_size_t) :
    to_size_t sizeof_size_t x = x := by
  unfold size_t_max at h
  unfold to_size_t
  apply Nat.mod_eq_of_lt
  have : 0 < 2 ^ (8 * sizeof_size_t) := Nat.two_pow_pos _
  omega

/-- The window of lines 91 to 101 contains the request, on both branches. -/
theorem remap_window_covers (sizeof_size_t file_size offset length : Nat)
    (hsz : sizeof_size_t = 4 ∨ sizeof_size_t = 8)
    (hfs : file_size < 2 ^ 63) (hin : offset + length ≤ file_size) :
    (remap_window sizeof_size_t file_size offset length).1 ≤ offset ∧
      offset + length ≤ (remap_window sizeof_size_t file_size offset length).1
        + (remap_window sizeof_size_t file_size offset length).2 := by
  rcases hsz with rfl | rfl
  · rw [remap_window_narrow _ _ _ hfs hin]
    simp only
    have hq1 : 1048576 * (offset / 1048576) ≤ offset := Nat.mul_div_le _ _
    have hk : length + offset % 1048576
        ≤ 1048576 * ((length + offset % 1048576 + 1048575) / 1048576) := by
      generalize length + offset % 1048576 = x
      omega
    have hmod : offset % 1048576 = offset - 1048576 * (offset / 1048576) := by
      have := Nat.div_add_mod offset 1048576
      omega
    have key : ∀ ms k : Nat, ms ≤ offset → length + (offset - ms) ≤ k →
        offset + length ≤ ms + min (max 16777216 k) (file_size - ms) := by
      intro ms k h1 h2
      have h3 : length + (offset - ms) ≤ min (max 16777216 k) (file_size - ms) :=
        le_min (le_trans h2 (le_max_right _ _)) (by omega)
      omega
    exact ⟨hq1, key _ _ hq1 (by rw [← hmod]; exact hk)⟩
  · rw [remap_window_wide]
    simp only
    omega

/-- What a remap that returns leaves behind: the region is the view of the
computed window, and the returned address and the requested bytes lie in it. -/
theorem read_miss_ok (sizeof_size_t : Nat) (os : MapOracle) (self : read_file_mapping)
    (s_offset : Int) (length : Nat)
    (hsz : sizeof_size_t = 4 ∨ sizeof_size_t = 8)
    (hfs : self.file_size < 2 ^ 63)
    (hin : to_uint64 s_offset + length ≤ self.file_size)
    (hmiss : current_mapping_covers self (to_uint64 s_offset) length = false) :
    (remap_window sizeof_size_t self.file_size (to_uint64 s_offset) length).1
        ≤ to_uint64 s_offset ∧
      to_uint64 s_offset + length
        ≤ (remap_window sizeof_size_t self.file_size (to_uint64 s_offset) length).1
          + (remap_window sizeof_size_t self.file_size (to_uint64 s_offset) length).2 ∧
      ∀ p, (read sizeof_size_t os self s_offset length).result = .ok p →
        ∃ r, (read sizeof_size_t os self s_offset length).self.region = some r ∧
          (read sizeof_size_t os self s_offset length).self.mapping_start
            = (remap_window sizeof_size_t self.file_size (to_uint64 s_offset) length).1 ∧
          r.size = (remap_window sizeof_size_t self.file_size (to_uint64 s_offset) length).2 ∧
          p = r.address + ((to_uint64 s_offset
            - (read sizeof_size_t os self s_offset length).self.mapping_start : Nat) : Int) ∧
          r.address ≤ p ∧ p + (length : Int) ≤ r.address + (r.size : Int) ∧
          r.offset = (read sizeof_size_t os self s_offset length).self.mapping_start := by
  obtain ⟨hw1, hw2⟩ := remap_window_covers sizeof_size_t _ _ _ hsz hfs hin
  refine ⟨hw1, hw2, ?_⟩
  have hchk : (to_uint64 s_offset + length) % two64 ≤ self.file_size :=
    le_trans (Nat.mod_le _ _) hin
  rw [read_remap _ _ _ _ _ hchk hmiss]
  generalize remap_window sizeof_size_t self.file_size (to_uint64 s_offset) length = w
    at hw1 hw2 ⊢
  simp only
  intro p hp
  by_cases hle : w.2 > size_t_max sizeof_size_t
  · rw [if_pos hle] at hp
    simp at hp
  · rw [if_neg hle] at hp ⊢
    rw [to_size_t_of_le _ _ (by omega)] at hp ⊢
    cases ho : os w.1 w.2 with
    | none =>
      rw [ho] at hp
      simp at hp
    | some a =>
      rw [ho] at hp
      simp only [Except.ok.injEq] at hp
      refine ⟨⟨a, w.2, w.1⟩, rfl, rfl, rfl, ?_, ?_, ?_, rfl⟩
      · rw [← hp, Nat.cast_sub hw1, add_sub_assoc]
      · simp only
        omega
      · simp only
        omega

/-- C7. The window computed by a remap covers the request: on either branch,
for an in-range request on a file of fewer than `2 ^ 63` bytes that misses the
current mapping, the new `mapping_start` and window length satisfy
`mapping_start <= offset` and `offset + length <= mapping_start + length of
the window`; and when `read` returns, the region has that start and length,
the returned address is `region.base + (offset - mapping_start)`, and it and
the `length` bytes after it lie in `[region.base, region.base + region.size)`;
the region is the view of the file that starts at `mapping_start`. -/
theorem C7_window_covers (sizeof_size_t : Nat) (os : MapOracle) (self : read_file_mapping)
    (s_offset : Int) (length : Nat)
    (hsz : sizeof_size_t = 4 ∨ sizeof_size_t = 8)
    (hfs : self.file_size < 2 ^ 63)
    (hin : to_uint64 s_offset + length ≤ self.file_size)
    (hmiss : current_mapping_covers self (to_uint64 s_offset) length = false) :
    (remap_window sizeof_size_t self.file_size (to_uint64 s_offset) length).1
        ≤ to_uint64 s_offset ∧
      to_uint64 s_offset + length
        ≤ (remap_window sizeof_size_t self.file_size (to_uint64 s_offset) length).1
          + (remap_window sizeof_size_t self.file_size (to_uint64 s_offset) length).2 ∧
      ∀ p, (read sizeof_size_t os self s_offset length).result = .ok p →
        ∃ r, (read sizeof_size_t os self s_offset length).self.region = some r ∧
          (read sizeof_size_t os self s_offset length).self.mapping_start
            = (remap_window sizeof_size_t self.file_size (to_uint64 s_offset) length).1 ∧
          r.size = (remap_window sizeof_size_t self.file_size (to_uint64 s_offset) length).2 ∧
          p = r.address + ((to_uint64 s_offset
            - (read sizeof_size_t os self s_offset length).self.mapping_start : Nat) : Int) ∧
          r.address ≤ p ∧ p + (length : Int) ≤ r.address + (r.size : Int) ∧
          r.offset = (read sizeof_size_t os self s_offset length).self.mapping_start :=
  read_miss_ok sizeof_size_t os self s_offset length hsz hfs hin hmiss

/-- A witness of C7: the second request of the 50 MiB example, on the narrow
branch. -/
theorem C7_window_covers_witness :
    (remap_window 4 52428800 (to_uint64 20971520) 100).1 ≤ to_uint64 20971520 ∧
      to_uint64 20971520 + 100
        ≤ (remap_window 4 52428800 (to_uint64 20971520) 100).1
          + (remap_window 4 52428800 (to_uint64 20971520) 100).2 ∧
      ∀ p, (read 4 (os_ok 4096) ⟨52428800, some ⟨4096, 16777216, 0⟩, 0⟩ 20971520 100).result
          = .ok p →
        ∃ r, (read 4 (os_ok 4096) ⟨52428800, some ⟨4096, 16777216, 0⟩, 0⟩
            20971520 100).self.region = some r ∧
          (read 4 (os_ok 4096) ⟨52428800, some ⟨4096, 16777216, 0⟩, 0⟩
            20971520 100).self.mapping_start
            = (remap_window 4 52428800 (to_uint64 20971520) 100).1 ∧
          r.size = (remap_window 4 52428800 (to_uint64 20971520) 100).2 ∧
          p = r.address + ((to_uint64 20971520
            - (read 4 (os_ok 4096) ⟨52428800, some ⟨4096, 16777216, 0⟩, 0⟩
              20971520 100).self.mapping_start : Nat) : Int) ∧
          r.address ≤ p ∧ p + ((100 : Nat) : Int) ≤ r.address + (r.size : Int) ∧
          r.offset = (read 4 (os_ok 4096) ⟨52428800, some ⟨4096, 16777216, 0⟩, 0⟩
            20971520 100).self.mapping_start :=
  C7_window_covers 4 (os_ok 4096) ⟨52428800, some ⟨4096, 16777216, 0⟩, 0⟩ 20971520 100
    (by decide) (by decide) (by decide) (by decide)

/-! ## The wide branch and the size limit -/

/-- C8. On the wide branch (`sizeof(size_t) == 8`) a remap for an in-range
request makes exactly one mapping call, for `mapping_start = 0` and
`length = file_size`, whatever the requested offset and length; it leaves
`mapping_start = 0`; when the mapping succeeds at base address `a` the call
returns `a + offset` and the region is the view of the whole file, and when
the mapping fails the call fails with `FileSystemUnknownError`. -/
theorem C8_wide_maps_whole_file (os : MapOracle) (self : read_file_mapping)
    (s_offset : Int) (length : Nat)
    (hfs : self.file_size < two64)
    (hin : to_uint64 s_offset + length ≤ self.file_size)
    (hmiss : current_mapping_covers self (to_uint64 s_offset) length = false) :
    (read 8 os self s_offset length).maps = [(0, self.file_size)] ∧
      (read 8 os self s_offset length).self.mapping_start = 0 ∧
      (∀ a, os 0 self.file_size = some a →
        (read 8 os self s_offset length).result = .ok (a + (to_uint64 s_offset : Int)) ∧
        (read 8 os self s_offset length).self.region = some ⟨a, self.file_size, 0⟩) ∧
      (os 0 self.file_size = none →
        (read 8 os self s_offset length).result = .error .FileSystemUnknownError) := by
  have hchk : (to_uint64 s_offset + length) % two64 ≤ self.file_size :=
    le_trans (Nat.mod_le _ _) hin
  have hmax : self.file_size ≤ size_t_max 8 := by
    unfold two64 at hfs
    norm_num [size_t_max]
    omega
  rw [read_remap _ _ _ _ _ hchk hmiss, remap_window_wide]
  simp only
  rw [if_neg (by omega), to_size_t_of_le _ _ hmax]
  cases ho : os 0 self.file_size with
  | none => simp
  | some a => simp

/-- A witness of C8: a request in the middle of a 50 MiB file, on a reader
that has no region yet. -/
theorem C8_wide_maps_whole_file_witness :
    (read 8 (os_ok 4096) (fresh 52428800) 20971520 100).maps
        = [(0, (fresh 52428800).file_size)] ∧
      (read 8 (os_ok 4096) (fresh 52428800) 20971520 100).self.mapping_start = 0 ∧
      (∀ a, os_ok 4096 0 (fresh 52428800).file_size = some a →
        (read 8 (os_ok 4096) (fresh 52428800) 20971520 100).result
          = .ok (a + (to_uint64 20971520 : Int)) ∧
        (read 8 (os_ok 4096) (fresh 52428800) 20971520 100).self.region
          = some ⟨a, (fresh 52428800).file_size, 0⟩) ∧
      (os_ok 4096 0 (fresh 52428800).file_size = none →
        (read 8 (os_ok 4096) (fresh 52428800) 20971520 100).result
          = .error .FileSystemUnknownError) :=
  C8_wide_maps_whole_file (os_ok 4096) (fresh 52428800) 20971520 100
    (by decide) (by decide) (by decide)

/-- C9. For an accepted request that misses the current window: if the
computed window length exceeds `std::numeric_limits<size_t>::max()`
(`2 ^ 32 - 1` on the narrow branch, `2 ^ 64 - 1` on the wide one) then `read`
fails with `std::bad_alloc` and makes no mapping call; if it does not, `read`
does not fail with `std::bad_alloc`. On the wide branch the computed length
never exceeds the maximum, so the call never fails with `std::bad_alloc`. -/
theorem C9_size_limit (sizeof_size_t : Nat) (os : MapOracle) (self : read_file_mapping)
    (s_offset : Int) (length : Nat)
    (hfs : self.file_size < two64)
    (hin : to_uint64 s_offset + length ≤ self.file_size)
    (hmiss : current_mapping_covers self (to_uint64 s_offset) length = false) :
    ((remap_window sizeof_size_t self.file_size (to_uint64 s_offset) length).2
          > size_t_max sizeof_size_t →
        (read sizeof_size_t os self s_offset length).result = .error .bad_alloc ∧
        (read sizeof_size_t os self s_offset length).maps = []) ∧
      ((remap_window sizeof_size_t self.file_size (to_uint64 s_offset) length).2
          ≤ size_t_max sizeof_size_t →
        (read sizeof_size_t os self s_offset length).result ≠ .error .bad_alloc) ∧
      (sizeof_size_t = 8 →
        (remap_window sizeof_size_t self.file_size (to_uint64 s_offset) length).2
          ≤ size_t_max sizeof_size_t ∧
        (read sizeof_size_t os self s_offset length).result ≠ .error .bad_alloc) ∧
      size_t_max 4 = 4294967295 ∧ size_t_max 8 = 18446744073709551615 := by
  have hchk : (to_uint64 s_offset + length) % two64 ≤ self.file_size :=
    le_trans (Nat.mod_le _ _) hin
  have hno : (remap_window sizeof_size_t self.file_size (to_uint64 s_offset) length).2
      ≤ size_t_max sizeof_size_t →
      (read sizeof_size_t os self s_offset length).result ≠ .error .bad_alloc := by
    intro hle
    rw [read_remap _ _ _ _ _ hchk hmiss]
    simp only
    rw [if_neg (by omega)]
    cases os (remap_window sizeof_size_t self.file_size (to_uint64 s_offset) length).1
      (to_size_t sizeof_size_t
        (remap_window sizeof_size_t self.file_size (to_uint64 s_offset) length).2) <;> simp
  refine ⟨?_, hno, ?_, by norm_num [size_t_max], by norm_num [size_t_max]⟩
  · intro hgt
    rw [read_remap _ _ _ _ _ hchk hmiss]
    simp only
    rw [if_pos hgt]
    exact ⟨rfl, rfl⟩
  · intro h8
    subst h8
    have hmax : (remap_window 8 self.file_size (to_uint64 s_offset) length).2
        ≤ size_t_max 8 := by
      rw [remap_window_wide]
      unfold two64 at hfs
      norm_num [size_t_max]
      omega
    exact ⟨hmax, hno hmax⟩

/-- A witness of C9 on the narrow branch: a request of `2 ^ 32` bytes on a
5 GiB file. -/
theorem C9_size_limit_witness :
    (read 4 (os_ok 4096) (fresh 5368709120) 0 4294967296).result = .error .bad_alloc ∧
      (read 4 (os_ok 4096) (fresh 5368709120) 0 4294967296).maps = [] :=
  (C9_size_limit 4 (os_ok 4096) (fresh 5368709120) 0 4294967296
    (by decide) (by decide) (by decide)).1 (by decide)

/-! ## The 50 MiB example -/

/-- C10. Narrow branch, `file_size = 50 MiB`, both mappings succeeding (at
base addresses `a1` and `a2`): from a fresh reader `read(0, 10)` maps and
installs the window `[0, 16 MiB)`; that window does not serve
`read(20 MiB, 100)`, which maps and installs the window `[20 MiB, 36 MiB)`,
where `36 MiB = min(20 MiB + 16 MiB, 50 MiB)`, in place of the first, and
returns `a2 + 0`. -/
theorem C10_example_50MiB (os1 os2 : MapOracle) (a1 a2 : Int)
    (h1 : os1 0 (MiB 16) = some a1) (h2 : os2 (MiB 20) (MiB 16) = some a2) :
    (read 4 os1 (fresh (MiB 50)) 0 10).result = .ok a1 ∧
      (read 4 os1 (fresh (MiB 50)) 0 10).maps = [(0, MiB 16)] ∧
      (read 4 os1 (fresh (MiB 50)) 0 10).self = ⟨MiB 50, some ⟨a1, MiB 16, 0⟩, 0⟩ ∧
      current_mapping_covers ⟨MiB 50, some ⟨a1, MiB 16, 0⟩, 0⟩ (MiB 20) 100 = false ∧
      (read 4 os2 (read 4 os1 (fresh (MiB 50)) 0 10).self 20971520 100).maps
        = [(MiB 20, MiB 16)] ∧
      (read 4 os2 (read 4 os1 (fresh (MiB 50)) 0 10).self 20971520 100).self
        = ⟨MiB 50, some ⟨a2, MiB 16, MiB 20⟩, MiB 20⟩ ∧
      (read 4 os2 (read 4 os1 (fresh (MiB 50)) 0 10).self 20971520 100).result
        = .ok (a2 + 0) ∧
      MiB 20 + MiB 16 = min (MiB 20 + MiB 16) (MiB 50) ∧ MiB 20 + MiB 16 = MiB 36 := by
  have e1 : read 4 os1 (fresh (MiB 50)) 0 10
      = ⟨.ok a1, ⟨MiB 50, some ⟨a1, MiB 16, 0⟩, 0⟩, [(0, MiB 16)]⟩ := by
    rw [read_remap _ _ _ _ _ (by decide) (by decide)]
    have hw : remap_window 4 (fresh (MiB 50)).file_size (to_uint64 0) 10 = (0, MiB 16) := by
      decide
    have hs : to_size_t 4 (MiB 16) = MiB 16 := by decide
    simp only [hw, hs, h1]
    rw [if_neg (by decide)]
    simp [fresh, to_uint64]
  have hc : current_mapping_covers ⟨MiB 50, some ⟨a1, MiB 16, 0⟩, 0⟩ (MiB 20) 100 = false := by
    simp [current_mapping_covers, MiB, two64]
  have hu : to_uint64 20971520 = MiB 20 := by decide
  have e2 : read 4 os2 ⟨MiB 50, some ⟨a1, MiB 16, 0⟩, 0⟩ 20971520 100
      = ⟨.ok (a2 + 0), ⟨MiB 50, some ⟨a2, MiB 16, MiB 20⟩, MiB 20⟩, [(MiB 20, MiB 16)]⟩ := by
    rw [read_remap _ _ _ _ _
      (show (to_uint64 20971520 + 100) % two64 ≤ MiB 50 by decide) (by rw [hu]; exact hc)]
    have hw : remap_window 4 (MiB 50) (to_uint64 20971520) 100 = (MiB 20, MiB 16) := by
      decide
    have hs : to_size_t 4 (MiB 16) = MiB 16 := by decide
    simp only [hw, hs, h2]
    rw [if_neg (by decide)]
    simp [hu]
  rw [e1]
  refine ⟨rfl, rfl, rfl, hc, ?_, ?_, ?_, by decide, by decide⟩
  all_goals simp only [e2]

/-- A witness of C10, with mappings at the base addresses 4096 and 8192. -/
theorem C10_example_50MiB_witness :
    (read 4 (os_ok 8192) (read 4 (os_ok 4096) (fresh (MiB 50)) 0 10).self 20971520 100).self
        = ⟨MiB 50, some ⟨8192, MiB 16, MiB 20⟩, MiB 20⟩ ∧
      (read 4 (os_ok 8192) (read 4 (os_ok 4096) (fresh (MiB 50)) 0 10).self 20971520 100).result
        = .ok (8192 + 0) :=
  ⟨(C10_example_50MiB (os_ok 4096) (os_ok 8192) 4096 8192 rfl rfl).2.2.2.2.2.1,
    (C10_example_50MiB (os_ok 4096) (os_ok 8192) 4096 8192 rfl rfl).2.2.2.2.2.2.1⟩

/-! ## Runs of calls and the bytes behind the returned pointer -/

/-- No call changes `file_size`. -/
theorem read_file_size (sizeof_size_t : Nat) (os : MapOracle) (self : read_file_mapping)
    (s_offset : Int) (length : Nat) :
    (read sizeof_size_t os self s_offset length).self.file_size = self.file_size := by
  by_cases h : (to_uint64 s_offset + length) % two64 > self.file_size
  · rw [read_beyond_end _ _ _ _ _ h]
  · have h1 : (to_uint64 s_offset + length) % two64 ≤ self.file_size := by omega
    cases hc : current_mapping_covers self (to_uint64 s_offset) length with
    | true =>
      obtain ⟨r, hr, -, -⟩ := covers_region _ _ _ hc
      rw [read_current _ _ _ _ _ r h1 hr hc]
    | false =>
      rw [read_remap _ _ _ _ _ h1 hc]
      simp only
      split
      · rfl
      · split <;> rfl

/-- A call that is not abandoned inside the remap keeps the region aligned
with `mapping_start`. -/
theorem read_region_at_mapping_start (sizeof_size_t : Nat) (os : MapOracle)
    (self : read_file_mapping) (s_offset : Int) (length : Nat)
    (hinv : region_at_mapping_start self)
    (hok : is_remap_failure (read sizeof_size_t os self s_offset length).result = false) :
    region_at_mapping_start (read sizeof_size_t os self s_offset length).self := by
  by_cases h : (to_uint64 s_offset + length) % two64 > self.file_size
  · rw [read_beyond_end _ _ _ _ _ h]
    exact hinv
  · have h1 : (to_uint64 s_offset + length) % two64 ≤ self.file_size := by omega
    cases hc : current_mapping_covers self (to_uint64 s_offset) length with
    | true =>
      obtain ⟨r, hr, -, -⟩ := covers_region _ _ _ hc
      rw [read_current _ _ _ _ _ r h1 hr hc]
      exact hinv
    | false =>
      rw [read_remap _ _ _ _ _ h1 hc] at hok ⊢
      simp only at hok ⊢
      split at hok
      · simp [is_remap_failure] at hok
      · rename_i hle
        rw [if_neg hle]
        split at hok
        · simp [is_remap_failure] at hok
        · intro r hr
          simp only [Option.some.injEq] at hr
          rw [← hr]

/-- The state after a run has the `file_size` it started with. -/
theorem run_file_size (sizeof_size_t : Nat) (calls : List Call) :
    ∀ self : read_file_mapping,
      (run sizeof_size_t self calls).file_size = self.file_size := by
  induction calls with
  | nil => intro self; rfl
  | cons c cs ih =>
    intro self
    rw [run, ih, step, read_file_size]

/-- A run none of whose calls is abandoned inside the remap keeps the region
aligned with `mapping_start`. -/
theorem run_region_at_mapping_start (sizeof_size_t : Nat) (calls : List Call) :
    ∀ self : read_file_mapping, region_at_mapping_start self →
      (∀ e ∈ results sizeof_size_t self calls, is_remap_failure e = false) →
      region_at_mapping_start (run sizeof_size_t self calls) := by
  induction calls with
  | nil => intro self hinv _; exact hinv
  | cons c cs ih =>
    intro self hinv hclean
    rw [run]
    apply ih
    · exact read_region_at_mapping_start _ _ _ _ _ hinv
        (hclean _ (by rw [results]; exact List.mem_cons_self _ _))
    · intro e he
      exact hclean e (by rw [results]; exact List.mem_cons_of_mem _ he)

/-- In a state whose region is aligned with `mapping_start`, a request inside
the file that returns a pointer returns one behind which the requested bytes
of the file are found. -/
theorem read_bytes (sizeof_size_t : Nat) (os : MapOracle) (f : File)
    (self : read_file_mapping) (s_offset : Int) (length : Nat) (p : Int)
    (hsz : sizeof_size_t = 4 ∨ sizeof_size_t = 8)
    (hf : f.size < 2 ^ 63) (hfs : self.file_size = f.size)
    (hinv : region_at_mapping_start self)
    (hin : to_uint64 s_offset + length ≤ f.size)
    (hret : (read sizeof_size_t os self s_offset length).result = .ok p) :
    ∀ i : Nat, i < length →
      deref f (read sizeof_size_t os self s_offset length).self.region (p + (i : Int))
        = some (f.byte (to_uint64 s_offset + i)) := by
  intro i hi
  have hchk : (to_uint64 s_offset + length) % two64 ≤ self.file_size := by
    rw [hfs]
    exact le_trans (Nat.mod_le _ _) hin
  have hget : f.get? (to_uint64 s_offset + i) = some (f.byte (to_uint64 s_offset + i)) := by
    unfold File.get?
    rw [if_pos (by omega)]
  cases hc : current_mapping_covers self (to_uint64 s_offset) length with
  | true =>
    obtain ⟨r, hr, hlo, hhi⟩ := covers_region _ _ _ hc
    rw [read_current _ _ _ _ _ r hchk hr hc] at hret ⊢
    simp only [Except.ok.injEq] at hret
    have h1 : (to_uint64 s_offset + length) % two64 = to_uint64 s_offset + length :=
      Nat.mod_eq_of_lt (by unfold two64; omega)
    have h2 : (self.mapping_start + r.size) % two64 ≤ self.mapping_start + r.size :=
      Nat.mod_le _ _
    have hoff := hinv r hr
    have hv : r.viewed (p + (i : Int)) = some (to_uint64 s_offset + i) := by
      unfold mapped_region.viewed
      rw [if_pos (by omega)]
      congr 1
      omega
    simp only [deref, hr, hv, hget]
  | false =>
    obtain ⟨hw1, hw2, hp⟩ := read_miss_ok sizeof_size_t os self s_offset length hsz
      (by rw [hfs]; exact hf) (by rw [hfs]; exact hin) hc
    obtain ⟨r, hr, hms, hsize, hpp, hlo, hhi, hoff⟩ := hp p hret
    rw [hms] at hpp hoff
    have hv : r.viewed (p + (i : Int)) = some (to_uint64 s_offset + i) := by
      unfold mapped_region.viewed
      rw [if_pos (by omega)]
      congr 1
      omega
    simp only [deref, hr, hv, hget]

/-- What the code does guarantee about the bytes behind a returned pointer. On
either branch, for a file of fewer than `2 ^ 63` bytes: starting from a
freshly constructed reader, after any sequence of `read` calls none of which
was abandoned inside the remap (none ended in `FileSystemUnknownError` or in
`std::bad_alloc`), every request with `offset + length <= file_size` for
which `read` returns a pointer `p` finds behind `p`, through the region left
by that call, the `length` bytes of the file from `offset` on: byte `p + i` is
file byte `offset + i` for every `i < length`. This covers the fast path and
the remap alike. -/
theorem read_round_trip_of_clean_run (sizeof_size_t : Nat) (f : File) (calls : List Call)
    (os : MapOracle) (s_offset : Int) (length : Nat) (p : Int)
    (hsz : sizeof_size_t = 4 ∨ sizeof_size_t = 8)
    (hf : f.size < 2 ^ 63)
    (hclean : ∀ e ∈ results sizeof_size_t (fresh f.size) calls, is_remap_failure e = false)
    (hin : to_uint64 s_offset + length ≤ f.size)
    (hret : (read sizeof_size_t os (run sizeof_size_t (fresh f.size) calls)
      s_offset length).result = .ok p) :
    ∀ i : Nat, i < length →
      deref f (read sizeof_size_t os (run sizeof_size_t (fresh f.size) calls)
          s_offset length).self.region (p + (i : Int))
        = some (f.byte (to_uint64 s_offset + i)) := by
  have hinv : region_at_mapping_start (run sizeof_size_t (fresh f.size) calls) :=
    run_region_at_mapping_start sizeof_size_t calls (fresh f.size)
      (by intro r hr; simp [fresh] at hr) hclean
  have hfs : (run sizeof_size_t (fresh f.size) calls).file_size = f.size := by
    rw [run_file_size]
    rfl
  exact read_bytes sizeof_size_t os f _ s_offset length p hsz hf hfs hinv hin hret

/-- An instance of the round trip: after the two calls of the 50 MiB example,
on the narrow branch, the request `(21 MiB, 100)` is served by the second
window. -/
theorem read_round_trip_of_clean_run_example :
    to_uint64 22020096 + 100 ≤ (sample_file 52428800).size ∧
      ∀ i : Nat, i < 100 →
        deref (sample_file 52428800)
            (read 4 os_fail (run 4 (fresh (sample_file 52428800).size) example_calls)
              22020096 100).self.region (1056768 + (i : Int))
          = some ((sample_file 52428800).byte (to_uint64 22020096 + i)) :=
  ⟨by decide,
    read_round_trip_of_clean_run 4 (sample_file 52428800) example_calls os_fail
      22020096 100 1056768 (by decide) (by decide) (by decide) (by decide) (by decide)⟩

/-- C1, the code at the failing input: narrow branch, 5 GiB file. After
`oversize_calls`, in which no mapping attempt failed (the first call returns
the pointer 4096 into the window `[0, 16 MiB)`; the second, `(100 MiB, 2 ^ 32)`,
is inside the file and ends in `std::bad_alloc` without a mapping call), the
reader holds the region of `[0, 16 MiB)` with `mapping_start = 100 MiB`. The
request `(100 MiB, 10)` is inside the file; it takes the fast path, makes no
mapping call and returns the pointer 4096, behind which lies byte 0 of the
file (value 0) and not byte 100 MiB (value 100). -/
theorem C1_read_after_bad_alloc :
    results 4 (fresh 5368709120) oversize_calls = [.ok 4096, .error .bad_alloc] ∧
      (∀ e ∈ results 4 (fresh 5368709120) oversize_calls, is_mapping_failure e = false) ∧
      (step 4 (step 4 (fresh 5368709120) ⟨os_ok 4096, 0, 10⟩).self
        ⟨os_ok 4096, 104857600, 4294967296⟩).maps = [] ∧
      run 4 (fresh 5368709120) oversize_calls
        = ⟨5368709120, some ⟨4096, 16777216, 0⟩, 104857600⟩ ∧
      to_uint64 104857600 + 10 ≤ (sample_file 5368709120).size ∧
      (read 4 (os_ok 4096) (run 4 (fresh 5368709120) oversize_calls) 104857600 10).result
        = .ok 4096 ∧
      (read 4 (os_ok 4096) (run 4 (fresh 5368709120) oversize_calls) 104857600 10).maps
        = [] ∧
      deref (sample_file 5368709120)
          (read 4 (os_ok 4096) (run 4 (fresh 5368709120) oversize_calls)
            104857600 10).self.region (4096 + 0)
        = some 0 ∧
      (sample_file 5368709120).byte (to_uint64 104857600 + 0) = 100 := by
  decide

/-! ## Requests whose end wraps around -/

/-- C2, the code at the failing input `s_offset = -1`, `length = 1` on a fresh
reader of a 10-byte file: `offset = 2 ^ 64 - 1`, so `offset + length = 2 ^ 64`
exceeds `file_size`, but the sum the code compares is `0` and the request is
accepted. On the wide branch the call maps the whole file and returns the
address `base + 2 ^ 64 - 1` outside the region; on the narrow branch it maps
at file offset `2 ^ 64 - 2 ^ 20` and moves `mapping_start` there. -/
theorem C2_wrapped_sum_is_accepted :
    to_uint64 (-1) = 18446744073709551615 ∧
      to_uint64 (-1) + 1 > (fresh 10).file_size ∧
      (to_uint64 (-1) + 1) % two64 = 0 ∧
      (read 8 (os_ok 4096) (fresh 10) (-1) 1).result = .ok (4096 + 18446744073709551615) ∧
      (read 8 (os_ok 4096) (fresh 10) (-1) 1).maps = [(0, 10)] ∧
      (read 8 (os_ok 4096) (fresh 10) (-1) 1).self = ⟨10, some ⟨4096, 10, 0⟩, 0⟩ ∧
      (read 4 (os_ok 4096) (fresh 10) (-1) 1).result = .ok (4096 + 1048575) ∧
      (read 4 (os_ok 4096) (fresh 10) (-1) 1).maps = [(18446744073708503040, 1048586)] ∧
      (read 4 (os_ok 4096) (fresh 10) (-1) 1).self
        = ⟨10, some ⟨4096, 1048586, 18446744073708503040⟩, 18446744073708503040⟩ := by
  decide

/-! ## A remap that fails -/

/-- C4, the code at the failing input: narrow branch, 50 MiB file, the window
`[0, 16 MiB)` mapped at 4096 (the state after `read(0, 10)`), then
`read(20 MiB, 100)` with the mapping call failing. The call fails with
`FileSystemUnknownError` after one mapping call and keeps the region, but
`mapping_start` is 20 MiB afterwards: the state is not the one before, and the
retained region no longer serves the request `(0, 10)` it served before. -/
theorem C4_failed_remap_moves_mapping_start :
    (read 4 (os_ok 4096) (fresh 52428800) 0 10).self
        = ⟨52428800, some ⟨4096, 16777216, 0⟩, 0⟩ ∧
      (read 4 os_fail ⟨52428800, some ⟨4096, 16777216, 0⟩, 0⟩ 20971520 100).result
        = .error .FileSystemUnknownError ∧
      (read 4 os_fail ⟨52428800, some ⟨4096, 16777216, 0⟩, 0⟩ 20971520 100).maps
        = [(20971520, 16777216)] ∧
      (read 4 os_fail ⟨52428800, some ⟨4096, 16777216, 0⟩, 0⟩ 20971520 100).self
        = ⟨52428800, some ⟨4096, 16777216, 0⟩, 20971520⟩ ∧
      (read 4 os_fail ⟨52428800, some ⟨4096, 16777216, 0⟩, 0⟩ 20971520 100).self
        ≠ ⟨52428800, some ⟨4096, 16777216, 0⟩, 0⟩ ∧
      current_mapping_covers ⟨52428800, some ⟨4096, 16777216, 0⟩, 0⟩ 0 10 = true ∧
      current_mapping_covers ⟨52428800, some ⟨4096, 16777216, 0⟩, 20971520⟩ 0 10 = false := by
  decide

/-- C5, the code at the failing input: narrow branch, 50 MiB file; after
`read(0, 10)` (mapped at 4096) and `read(20 MiB, 100)` whose mapping fails, the
in-range request `read(20 MiB, 10)` takes the fast path: it makes no mapping
call and returns the pointer 4096 into the retained region, behind which lies
byte 0 of the file (value 0) and not byte 20 MiB (value 20). -/
theorem C5_read_after_failed_remap :
    results 4 (fresh 52428800) failing_calls
        = [.ok 4096, .error .FileSystemUnknownError] ∧
      run 4 (fresh 52428800) failing_calls
        = ⟨52428800, some ⟨4096, 16777216, 0⟩, 20971520⟩ ∧
      to_uint64 20971520 + 10 ≤ (sample_file 52428800).size ∧
      (read 4 (os_ok 8192) (run 4 (fresh 52428800) failing_calls) 20971520 10).result
        = .ok 4096 ∧
      (read 4 (os_ok 8192) (run 4 (fresh 52428800) failing_calls) 20971520 10).maps = [] ∧
      deref (sample_file 52428800)
          (read 4 (os_ok 8192) (run 4 (fresh 52428800) failing_calls)
            20971520 10).self.region (4096 + 0)
        = some 0 ∧
      (sample_file 52428800).byte (to_uint64 20971520 + 0) = 20 := by
  decide

/-! ## Requests inside the current window -/

/-- A request inside the file and inside the window of the current region,
the end of that window being a 64-bit offset, is served by line 89: no
mapping call, no change of state. -/
theorem read_covered (sizeof_size_t : Nat) (os : MapOracle) (self : read_file_mapping)
    (r : mapped_region) (s_offset : Int) (length : Nat)
    (hr : self.region = some r)
    (hfs : self.file_size < two64)
    (hwin : self.mapping_start + r.size < two64)
    (hin : to_uint64 s_offset + length ≤ self.file_size)
    (hlo : self.mapping_start ≤ to_uint64 s_offset)
    (hhi : to_uint64 s_offset + length ≤ self.mapping_start + r.size) :
    read sizeof_size_t os self s_offset length
      = ⟨.ok (r.address + ((to_uint64 s_offset - self.mapping_start : Nat) : Int)), self, []⟩ := by
  have h1 : (to_uint64 s_offset + length) % two64 = to_uint64 s_offset + length :=
    Nat.mod_eq_of_lt (by omega)
  have h2 : (self.mapping_start + r.size) % two64 = self.mapping_start + r.size :=
    Nat.mod_eq_of_lt hwin
  have hc : current_mapping_covers self (to_uint64 s_offset) length = true := by
    simp [current_mapping_covers, hr, h1, h2, hlo, hhi]
  rw [read_current _ _ _ _ _ r (by omega) hr hc, Nat.cast_sub hlo, add_sub_assoc]

/-- The window of lines 91 to 101 ends inside the file. -/
theorem remap_window_end (sizeof_size_t file_size offset length : Nat)
    (hsz : sizeof_size_t = 4 ∨ sizeof_size_t = 8)
    (hfs : file_size < 2 ^ 63) (hin : offset + length ≤ file_size) :
    (remap_window sizeof_size_t file_size offset length).1
      + (remap_window sizeof_size_t file_size offset length).2 ≤ file_size := by
  rcases hsz with rfl | rfl
  · rw [remap_window_narrow _ _ _ hfs hin]
    simp only
    have hq1 : 1048576 * (offset / 1048576) ≤ offset := Nat.mul_div_le _ _
    have key : ∀ ms k : Nat, ms ≤ offset →
        ms + min (max 16777216 k) (file_size - ms) ≤ file_size := by
      intro ms k h1
      have h3 : min (max 16777216 k) (file_size - ms) ≤ file_size - ms := min_le_right _ _
      omega
    exact key _ _ hq1
  · rw [remap_window_wide]
    simp only
    omega

/-- The largest `size_t` value is a `uint64_t` value on both branches. -/
theorem size_t_max_lt (sizeof_size_t : Nat) (hsz : sizeof_size_t = 4 ∨ sizeof_size_t = 8) :
    size_t_max sizeof_size_t < two64 := by
  rcases hsz with rfl | rfl <;> norm_num [size_t_max, two64]

/-- After a request inside the file has returned a pointer, there is a
region, its window ends at a 64-bit offset and contains the request, and the
pointer is the address of the request in that region. -/
theorem read_ok_window (sizeof_size_t : Nat) (os : MapOracle) (self : read_file_mapping)
    (s_offset : Int) (length : Nat) (p : Int)
    (hsz : sizeof_size_t = 4 ∨ sizeof_size_t = 8)
    (hfs : self.file_size < 2 ^ 63)
    (htype : ∀ r, self.region = some r → r.size ≤ size_t_max sizeof_size_t)
    (hin : to_uint64 s_offset + length ≤ self.file_size)
    (hret : (read sizeof_size_t os self s_offset length).result = .ok p) :
    ∃ r, (read sizeof_size_t os self s_offset length).self.region = some r ∧
      (read sizeof_size_t os self s_offset length).self.mapping_start + r.size < two64 ∧
      (read sizeof_size_t os self s_offset length).self.mapping_start ≤ to_uint64 s_offset ∧
      to_uint64 s_offset + length
        ≤ (read sizeof_size_t os self s_offset length).self.mapping_start + r.size ∧
      p = r.address + ((to_uint64 s_offset
        - (read sizeof_size_t os self s_offset length).self.mapping_start : Nat) : Int) := by
  have hchk : (to_uint64 s_offset + length) % two64 ≤ self.file_size :=
    le_trans (Nat.mod_le _ _) hin
  cases hc : current_mapping_covers self (to_uint64 s_offset) length with
  | true =>
    obtain ⟨r, hr, hlo, hhi⟩ := covers_region _ _ _ hc
    rw [read_current _ _ _ _ _ r hchk hr hc] at hret ⊢
    simp only [Except.ok.injEq] at hret
    dsimp only
    have h1 : (to_uint64 s_offset + length) % two64 = to_uint64 s_offset + length :=
      Nat.mod_eq_of_lt (by unfold two64; omega)
    rw [h1] at hhi
    have hmax := size_t_max_lt sizeof_size_t hsz
    have hrs := htype r hr
    have hwin : self.mapping_start + r.size < two64 := by
      by_contra hcon
      have h2 : (self.mapping_start + r.size) % two64
          = self.mapping_start + r.size - two64 := by
        rw [Nat.mod_eq_sub_mod (by omega)]
        exact Nat.mod_eq_of_lt (by unfold two64 at *; omega)
      rw [h2] at hhi
      omega
    rw [Nat.mod_eq_of_lt hwin] at hhi
    refine ⟨r, hr, hwin, hlo, hhi, ?_⟩
    rw [← hret, Nat.cast_sub hlo, add_sub_assoc]
  | false =>
    obtain ⟨hw1, hw2, hp⟩ := read_miss_ok sizeof_size_t os self s_offset length hsz hfs hin hc
    obtain ⟨r, hr, hms, hsize, hpp, -, -, -⟩ := hp p hret
    have hend := remap_window_end sizeof_size_t _ _ _ hsz hfs hin
    refine ⟨r, hr, ?_, ?_, ?_, hpp⟩
    · rw [hms, hsize]
      unfold two64
      omega
    · rw [hms]
      exact hw1
    · rw [hms, hsize]
      exact hw2

/-- C11. No second mapping for ranges in the same window. On either branch,
in a state with a file size below `2 ^ 63` and a region size that is a `size_t`
value: when an in-range request `r1` has returned a pointer `p1`, by
installing a window or by reusing the current one, the reader has a region,
and every in-range request `r2` whose bytes lie in the window
`[mapping_start, mapping_start + region.size)` of that region makes no
mapping call, leaves the state unchanged and returns
`region.base + (offset2 - mapping_start)`; in particular `r1` itself, repeated
at once, makes no mapping call, leaves the state unchanged and returns `p1`
again. The mapping capability of the second call is arbitrary: it is never
consulted. -/
theorem C11_no_second_mapping (sizeof_size_t : Nat) (os1 : MapOracle)
    (self : read_file_mapping) (s_offset1 : Int) (length1 : Nat) (p1 : Int)
    (hsz : sizeof_size_t = 4 ∨ sizeof_size_t = 8)
    (hfs : self.file_size < 2 ^ 63)
    (htype : ∀ r, self.region = some r → r.size ≤ size_t_max sizeof_size_t)
    (hin1 : to_uint64 s_offset1 + length1 ≤ self.file_size)
    (hret1 : (read sizeof_size_t os1 self s_offset1 length1).result = .ok p1) :
    ∃ r, (read sizeof_size_t os1 self s_offset1 length1).self.region = some r ∧
      (∀ (os2 : MapOracle) (s_offset2 : Int) (length2 : Nat),
        to_uint64 s_offset2 + length2 ≤ self.file_size →
        (read sizeof_size_t os1 self s_offset1 length1).self.mapping_start
          ≤ to_uint64 s_offset2 →
        to_uint64 s_offset2 + length2
          ≤ (read sizeof_size_t os1 self s_offset1 length1).self.mapping_start + r.size →
        read sizeof_size_t os2 (read sizeof_size_t os1 self s_offset1 length1).self
            s_offset2 length2
          = ⟨.ok (r.address + ((to_uint64 s_offset2
              - (read sizeof_size_t os1 self s_offset1 length1).self.mapping_start : Nat) : Int)),
            (read sizeof_size_t os1 self s_offset1 length1).self, []⟩) ∧
      (∀ os2 : MapOracle,
        read sizeof_size_t os2 (read sizeof_size_t os1 self s_offset1 length1).self
            s_offset1 length1
          = ⟨.ok p1, (read sizeof_size_t os1 self s_offset1 length1).self, []⟩) := by
  obtain ⟨r, hr, hwin, hlo, hhi, hp⟩ :=
    read_ok_window sizeof_size_t os1 self s_offset1 length1 p1 hsz hfs htype hin1 hret1
  have hfs1 : (read sizeof_size_t os1 self s_offset1 length1).self.file_size
      = self.file_size := read_file_size _ _ _ _ _
  have hfs2 : (read sizeof_size_t os1 self s_offset1 length1).self.file_size < two64 := by
    rw [hfs1]
    unfold two64
    omega
  refine ⟨r, hr, ?_, ?_⟩
  · intro os2 s_offset2 length2 hin2 hlo2 hhi2
    exact read_covered sizeof_size_t os2 _ r s_offset2 length2 hr hfs2 hwin
      (by rw [hfs1]; exact hin2) hlo2 hhi2
  · intro os2
    rw [hp]
    exact read_covered sizeof_size_t os2 _ r s_offset1 length1 hr hfs2 hwin
      (by rw [hfs1]; exact hin1) hlo hhi

/-- A witness of C11: the first request of the 50 MiB example, on the narrow
branch. -/
theorem C11_no_second_mapping_witness :
    ∃ r, (read 4 (os_ok 4096) (fresh 52428800) 0 10).self.region = some r ∧
      (∀ (os2 : MapOracle) (s_offset2 : Int) (length2 : Nat),
        to_uint64 s_offset2 + length2 ≤ (fresh 52428800).file_size →
        (read 4 (os_ok 4096) (fresh 52428800) 0 10).self.mapping_start
          ≤ to_uint64 s_offset2 →
        to_uint64 s_offset2 + length2
          ≤ (read 4 (os_ok 4096) (fresh 52428800) 0 10).self.mapping_start + r.size →
        read 4 os2 (read 4 (os_ok 4096) (fresh 52428800) 0 10).self s_offset2 length2
          = ⟨.ok (r.address + ((to_uint64 s_offset2
              - (read 4 (os_ok 4096) (fresh 52428800) 0 10).self.mapping_start : Nat) : Int)),
            (read 4 (os_ok 4096) (fresh 52428800) 0 10).self, []⟩) ∧
      (∀ os2 : MapOracle,
        read 4 os2 (read 4 (os_ok 4096) (fresh 52428800) 0 10).self 0 10
          = ⟨.ok 4096, (read 4 (os_ok 4096) (fresh 52428800) 0 10).self, []⟩) :=
  C11_no_second_mapping 4 (os_ok 4096) (fresh 52428800) 0 10 4096
    (by decide) (by decide) (fun r hr => by simp [fresh] at hr) (by decide) (by decide)

/-! ## Opening and closing the file -/

/-- C12. Classification of the known open failures. When the open returns
the invalid handle: on Windows `ERROR_FILE_NOT_FOUND` and
`ERROR_PATH_NOT_FOUND` make the constructor of `file_mapping` throw
`fs::FileNotFound` and `ERROR_ACCESS_DENIED` makes it throw `fs::ReadDenied`;
on POSIX `ENOENT` makes it throw `fs::FileNotFound` and `EACCES` makes it throw
`fs::ReadDenied`. When the open returns a valid handle the constructor does
not fail, on either platform and whatever the error code says, and the object
holds that handle. -/
theorem C12_open_failure_classification (wc : win32_codes) (ec : errno_codes)
    (handle code : Int) :
    file_mapping.constructor_win32 wc invalid_file wc.ERROR_FILE_NOT_FOUND
        = .error .FileNotFound ∧
      file_mapping.constructor_win32 wc invalid_file wc.ERROR_PATH_NOT_FOUND
        = .error .FileNotFound ∧
      file_mapping.constructor_win32 wc invalid_file wc.ERROR_ACCESS_DENIED
        = .error .ReadDenied ∧
      file_mapping.constructor_posix ec invalid_file ec.ENOENT_code = .error .FileNotFound ∧
      file_mapping.constructor_posix ec invalid_file ec.EACCES_code = .error .ReadDenied ∧
      (handle ≠ invalid_file →
        file_mapping.constructor_win32 wc handle code = .ok ⟨handle⟩ ∧
        file_mapping.constructor_posix ec handle code = .ok ⟨handle⟩) := by
  obtain ⟨hw1, hw2⟩ := wc.distinct
  obtain ⟨he1, -, -⟩ := ec.distinct
  refine ⟨?_, ?_, ?_, ?_, ?_, ?_⟩
  · simp [file_mapping.constructor_win32]
  · simp [file_mapping.constructor_win32]
  · simp [file_mapping.constructor_win32, hw1, hw2]
  · simp [file_mapping.constructor_posix]
  · simp [file_mapping.constructor_posix, Ne.symm he1]
  · intro h
    simp [file_mapping.constructor_win32, file_mapping.constructor_posix, h]

/-- A witness of C12: a valid handle 3, with the codes of the Windows API and
of Linux. -/
theorem C12_open_failure_classification_witness :
    (3 : Int) ≠ invalid_file ∧
      file_mapping.constructor_win32 windows_codes 3 0 = .ok ⟨3⟩ ∧
      file_mapping.constructor_posix linux_errno 3 0 = .ok ⟨3⟩ :=
  ⟨by decide,
    (C12_open_failure_classification windows_codes linux_errno 3 0).2.2.2.2.2 (by decide)⟩

/-- C13, the code at the failing input: on the POSIX branch the open has
returned the invalid handle and `errno` is `EMFILE` (24 on Linux), a value
other than `ENOENT`, `EACCES` and `EIO`. No label of the `switch` matches and
there is no `default`: the constructor throws nothing and completes holding
the invalid handle. The Windows branch, with its `default` label, throws
`fs::FileSystemUnknownError` for the same situation, as does the POSIX branch
for `EIO` alone. -/
theorem C13_posix_unlisted_errno_completes :
    (24 : Int) ≠ linux_errno.ENOENT_code ∧ (24 : Int) ≠ linux_errno.EACCES_code ∧
      file_mapping.constructor_posix linux_errno invalid_file 24 = .ok ⟨invalid_file⟩ ∧
      file_mapping.constructor_posix linux_errno invalid_file linux_errno.EIO_code
        = .error .FileSystemUnknownError ∧
      file_mapping.constructor_win32 windows_codes invalid_file 24
        = .error .FileSystemUnknownError := by
  refine ⟨by decide, by decide, rfl, rfl, rfl⟩

/-- C14, the code when the size query fails: the flag that
`ipcdetail::get_file_size` returns is not looked at, so with the flag `false`
the constructor of `read_file_mapping` still completes, and `file_size` is
whatever the variable `size` holds, converted to `uint64_t`. It never throws
`fs::FileSystemUnknownError` of its own. With the flag `true` the reader is
the fresh reader of that size. -/
theorem C14_size_query_failure_is_ignored (h : file_mapping) (size : Int) :
    read_file_mapping.constructor (.ok h) (false, size) = .ok (fresh (to_uint64 size)) ∧
      read_file_mapping.constructor (.ok h) (false, size)
        ≠ .error .FileSystemUnknownError ∧
      read_file_mapping.constructor (.ok h) (true, size) = .ok (fresh (to_uint64 size)) ∧
      read_file_mapping.constructor (.ok ⟨3⟩) (false, 12345) = .ok ⟨12345, none, 0⟩ := by
  refine ⟨rfl, ?_, rfl, rfl⟩
  intro hcon
  simp [read_file_mapping.constructor] at hcon

/-- C15. Handle release: the destructor of `file_mapping` calls the close of
the OS exactly once, on its own handle, when the handle is valid, and makes no
close call when the handle is the invalid sentinel. -/
theorem C15_handle_release (self : file_mapping) :
    (self.handle ≠ invalid_file → self.destructor = [self.handle]) ∧
      (self.handle = invalid_file → self.destructor = []) ∧
      self.destructor.length ≤ 1 := by
  unfold file_mapping.destructor
  by_cases h : self.handle = invalid_file
  · simp [h]
  · simp [h]

/-- A witness of C15: the valid handle 3 is closed once, the invalid handle
is not closed. -/
theorem C15_handle_release_witness :
    (file_mapping.mk 3).destructor = [3] ∧ (file_mapping.mk invalid_file).destructor = [] :=
  ⟨(C15_handle_release ⟨3⟩).1 (by decide), (C15_handle_release ⟨invalid_file⟩).2.1 rfl⟩

/-! ## The bit-mask arithmetic against the wording of the specification -/

/-- C16. On the narrow branch, for an in-range request on a file of fewer
than `2 ^ 63` bytes, the bit-mask arithmetic of lines 92 to 95 is the
arithmetic of the specification over the natural numbers. The `int` mask
`~0xFFFFF = -1048576` converted to `uint64_t` is `~0xFFFFFULL`;
`offset & ~0xFFFFF` is `offset - offset mod 2 ^ 20`; the subtraction
`offset - mapping_start` does not wrap and its result is not changed by the
cast to a 32-bit `size_t`; `length + (offset - mapping_start) + 0xFFFFF` does
not exceed the `uint64_t` range and masking it gives
`2 ^ 20 * ceil((length + offset - mapping_start) / 2 ^ 20)`;
`file_size - mapping_start` does not wrap; and the computed pair of
`mapping_start` and window length is the pair `spec_window` defines:
`min(max(2 ^ 24, 2 ^ 20 * ceil(..)), file_size - mapping_start)`. -/
theorem C16_mask_arithmetic (file_size offset length : Nat)
    (hfs : file_size < 2 ^ 63) (hin : offset + length ≤ file_size) :
    to_uint64 (-1048576) = mask_1MB ∧
      offset &&& mask_1MB = offset - offset % 2 ^ 20 ∧
      sub64 offset (offset &&& mask_1MB) = offset - (offset &&& mask_1MB) ∧
      to_size_t 4 (offset - (offset &&& mask_1MB)) = offset - (offset &&& mask_1MB) ∧
      length + (offset - (offset &&& mask_1MB)) + 0xFFFFF < two64 ∧
      (length + (offset - (offset &&& mask_1MB)) + 0xFFFFF) &&& mask_1MB
        = 2 ^ 20 * ((length + (offset - (offset &&& mask_1MB)) + (2 ^ 20 - 1)) / 2 ^ 20) ∧
      sub64 file_size (offset &&& mask_1MB) = file_size - (offset &&& mask_1MB) ∧
      remap_window 4 file_size offset length = spec_window file_size offset length := by
  have ho : offset < two64 := by unfold two64; omega
  have hms : offset &&& mask_1MB = 1048576 * (offset / 1048576) := land_mask_1MB offset ho
  have hmod : offset - 1048576 * (offset / 1048576) = offset % 1048576 := by
    have := Nat.div_add_mod offset 1048576
    omega
  have hlt : offset % 1048576 < 1048576 := Nat.mod_lt _ (by norm_num)
  have hle : 1048576 * (offset / 1048576) ≤ offset := Nat.mul_div_le _ _
  have h5 : length + offset % 1048576 + 1048575 < two64 := by unfold two64; omega
  rw [hms, hmod]
  refine ⟨by decide, ?_, ?_, ?_, h5, ?_, ?_, ?_⟩
  · norm_num
    omega
  · unfold sub64 two64
    omega
  · unfold to_size_t
    norm_num
    omega
  · rw [land_mask_1MB _ h5]
    norm_num
  · unfold sub64 two64
    omega
  · rw [remap_window_narrow _ _ _ hfs hin]
    unfold spec_window
    have e1 : offset - offset % 2 ^ 20 = 1048576 * (offset / 1048576) := by
      norm_num
      omega
    simp only [e1, hmod]
    norm_num

/-- A witness of C16: the second request of the 50 MiB example. -/
theorem C16_mask_arithmetic_witness :
    remap_window 4 52428800 20971520 100 = spec_window 52428800 20971520 100 ∧
      spec_window 52428800 20971520 100 = (20971520, 16777216) :=
  ⟨(C16_mask_arithmetic 52428800 20971520 100 (by decide) (by decide)).2.2.2.2.2.2.2,
    by decide⟩

/-- C18. Small requests never hit the size limit on the narrow branch: for a
file of fewer than `2 ^ 63` bytes (files above 4 GiB included) and an in-range
request of at most 15 MiB that misses the current window, the computed window
length is exactly `min(16 MiB, file_size - mapping_start)`, hence at most
16 MiB, and `read` does not fail with `std::bad_alloc`. -/
theorem C18_small_request_window (os : MapOracle) (self : read_file_mapping)
    (s_offset : Int) (length : Nat)
    (hfs : self.file_size < 2 ^ 63)
    (hin : to_uint64 s_offset + length ≤ self.file_size)
    (hlen : length ≤ 15728640)
    (hmiss : current_mapping_covers self (to_uint64 s_offset) length = false) :
    (remap_window 4 self.file_size (to_uint64 s_offset) length).2
        = min 16777216 (self.file_size
          - (remap_window 4 self.file_size (to_uint64 s_offset) length).1) ∧
      (remap_window 4 self.file_size (to_uint64 s_offset) length).2 ≤ 16777216 ∧
      (read 4 os self s_offset length).self.mapping_start
        = (remap_window 4 self.file_size (to_uint64 s_offset) length).1 ∧
      (read 4 os self s_offset length).result ≠ .error .bad_alloc := by
  have hchk : (to_uint64 s_offset + length) % two64 ≤ self.file_size :=
    le_trans (Nat.mod_le _ _) hin
  have hk : 1048576 * ((length + to_uint64 s_offset % 1048576 + 1048575) / 1048576)
      ≤ 16777216 := by
    have hlt : to_uint64 s_offset % 1048576 < 1048576 := Nat.mod_lt _ (by norm_num)
    generalize to_uint64 s_offset % 1048576 = m at hlt
    clear hchk hmiss hin hfs
    omega
  have hw : remap_window 4 self.file_size (to_uint64 s_offset) length
      = (1048576 * (to_uint64 s_offset / 1048576),
        min 16777216 (self.file_size - 1048576 * (to_uint64 s_offset / 1048576))) := by
    rw [remap_window_narrow _ _ _ hfs hin, max_eq_left hk]
  have hsmall : min 16777216 (self.file_size - 1048576 * (to_uint64 s_offset / 1048576))
      ≤ 16777216 := min_le_left _ _
  have hmax : ¬ min 16777216 (self.file_size - 1048576 * (to_uint64 s_offset / 1048576))
      > size_t_max 4 := by
    have : size_t_max 4 = 4294967295 := by norm_num [size_t_max]
    rw [this]
    omega
  rw [read_remap _ _ _ _ _ hchk hmiss, hw]
  dsimp only
  rw [if_neg hmax]
  refine ⟨rfl, hsmall, ?_, ?_⟩
  · cases os (1048576 * (to_uint64 s_offset / 1048576))
      (to_size_t 4 (min 16777216
        (self.file_size - 1048576 * (to_uint64 s_offset / 1048576)))) <;> rfl
  · cases os (1048576 * (to_uint64 s_offset / 1048576))
      (to_size_t 4 (min 16777216
        (self.file_size - 1048576 * (to_uint64 s_offset / 1048576)))) <;> simp

/-- A witness of C18: a request of 100 bytes at 5 GiB in a file of 6 GiB. -/
theorem C18_small_request_window_witness :
    (remap_window 4 (fresh 6442450944).file_size (to_uint64 5368709120) 100).2
        = min 16777216 ((fresh 6442450944).file_size
          - (remap_window 4 (fresh 6442450944).file_size (to_uint64 5368709120) 100).1) ∧
      (remap_window 4 (fresh 6442450944).file_size (to_uint64 5368709120) 100).2 ≤ 16777216 ∧
      (read 4 (os_ok 4096) (fresh 6442450944) 5368709120 100).self.mapping_start
        = (remap_window 4 (fresh 6442450944).file_size (to_uint64 5368709120) 100).1 ∧
      (read 4 (os_ok 4096) (fresh 6442450944) 5368709120 100).result ≠ .error .bad_alloc :=
  C18_small_request_window (os_ok 4096) (fresh 6442450944) 5368709120 100
    (by decide) (by decide) (by decide) (by decide)

/-! ## The wide branch over a whole run -/

/-- A call that returns a pointer leaves a region behind. -/
theorem read_ok_region (sizeof_size_t : Nat) (os : MapOracle) (self : read_file_mapping)
    (s_offset : Int) (length : Nat) (p : Int)
    (hret : (read sizeof_size_t os self s_offset length).result = .ok p) :
    (read sizeof_size_t os self s_offset length).self.region ≠ none := by
  by_cases h : (to_uint64 s_offset + length) % two64 > self.file_size
  · rw [read_beyond_end _ _ _ _ _ h] at hret
    simp at hret
  · have h1 : (to_uint64 s_offset + length) % two64 ≤ self.file_size := by omega
    cases hc : current_mapping_covers self (to_uint64 s_offset) length with
    | true =>
      obtain ⟨r, hr, -, -⟩ := covers_region _ _ _ hc
      rw [read_current _ _ _ _ _ r h1 hr hc]
      simp [hr]
    | false =>
      rw [read_remap _ _ _ _ _ h1 hc] at hret ⊢
      dsimp only at hret ⊢
      split at hret
      · simp at hret
      · rename_i hle
        rw [if_neg hle]
        split at hret
        · simp at hret
        · simp

/-- One call on the wide branch, in a state with `mapping_start = 0` whose
region, if any, is the view of the whole file: the state after the call is
again such a state; and if there is a region, the call makes no mapping call
and changes nothing. -/
theorem wide_read (os : MapOracle) (self : read_file_mapping) (s_offset : Int)
    (length : Nat) (hfs : self.file_size < two64) (hms : self.mapping_start = 0)
    (hreg : ∀ r, self.region = some r → r.size = self.file_size) :
    (read 8 os self s_offset length).self.file_size = self.file_size ∧
      (read 8 os self s_offset length).self.mapping_start = 0 ∧
      (∀ r, (read 8 os self s_offset length).self.region = some r →
        r.size = self.file_size) ∧
      (self.region ≠ none →
        (read 8 os self s_offset length).maps = [] ∧
        (read 8 os self s_offset length).self = self) := by
  by_cases h : (to_uint64 s_offset + length) % two64 > self.file_size
  · rw [read_beyond_end _ _ _ _ _ h]
    exact ⟨rfl, hms, hreg, fun _ => ⟨rfl, rfl⟩⟩
  · have h1 : (to_uint64 s_offset + length) % two64 ≤ self.file_size := by omega
    cases hr : self.region with
    | some r =>
      have hc : current_mapping_covers self (to_uint64 s_offset) length = true := by
        have h2 : r.size % two64 = self.file_size := by
          rw [hreg r hr]
          exact Nat.mod_eq_of_lt hfs
        simp [current_mapping_covers, hr, hms, h2, h1]
      rw [read_current _ _ _ _ _ r h1 hr hc]
      refine ⟨rfl, hms, ?_, fun _ => ⟨rfl, rfl⟩⟩
      intro r2 hr2
      exact hreg r2 hr2
    | none =>
      have hc : current_mapping_covers self (to_uint64 s_offset) length = false := by
        simp [current_mapping_covers, hr]
      have hmax : self.file_size ≤ size_t_max 8 := by
        unfold two64 at hfs
        norm_num [size_t_max]
        omega
      rw [read_remap _ _ _ _ _ h1 hc, remap_window_wide]
      dsimp only
      rw [if_neg (by omega), to_size_t_of_le _ _ hmax]
      cases os 0 self.file_size with
      | none => simp [hr]
      | some a => simp

/-- C17. The wide branch over the lifetime of a reader. On the wide branch
(`sizeof(size_t) == 8`), in the state reached from a fresh reader by any
sequence of `read` calls, whatever their arguments and whether they returned
or threw: `file_size` is the initial one, `mapping_start = 0`, and the region,
if present, has size `file_size`. A call that returns a pointer leaves a
region behind, and once there is a region every in-range request is served by
the fast path: no mapping call, state unchanged, pointer `region.base +
offset`. Over the whole sequence at most one mapping is created. -/
theorem C17_wide_invariant (file_size : Nat) (calls : List Call)
    (hfs : file_size < two64) :
    (run 8 (fresh file_size) calls).file_size = file_size ∧
      (run 8 (fresh file_size) calls).mapping_start = 0 ∧
      (∀ r, (run 8 (fresh file_size) calls).region = some r → r.size = file_size) ∧
      (∀ (os : MapOracle) (s_offset : Int) (length : Nat) (p : Int),
        (read 8 os (run 8 (fresh file_size) calls) s_offset length).result = .ok p →
        (read 8 os (run 8 (fresh file_size) calls) s_offset length).self.region ≠ none) ∧
      (∀ r, (run 8 (fresh file_size) calls).region = some r →
        ∀ (os : MapOracle) (s_offset : Int) (length : Nat),
          to_uint64 s_offset + length ≤ file_size →
          read 8 os (run 8 (fresh file_size) calls) s_offset length
            = ⟨.ok (r.address + (to_uint64 s_offset : Int)),
              run 8 (fresh file_size) calls, []⟩) ∧
      mappings_created 8 (fresh file_size) calls ≤ 1 := by
  have hrun : ∀ (cs : List Call) (s : read_file_mapping), s.file_size = file_size →
      s.mapping_start = 0 → (∀ r, s.region = some r → r.size = file_size) →
      ((run 8 s cs).file_size = file_size ∧ (run 8 s cs).mapping_start = 0 ∧
        (∀ r, (run 8 s cs).region = some r → r.size = file_size)) ∧
      (s.region ≠ none → mappings_created 8 s cs = 0) ∧
      mappings_created 8 s cs ≤ 1 := by
    intro cs
    induction cs with
    | nil =>
      intro s h1 h2 h3
      exact ⟨⟨h1, h2, h3⟩, fun _ => rfl, Nat.zero_le _⟩
    | cons c cs ih =>
      intro s h1 h2 h3
      obtain ⟨w1, w2, w3, w4⟩ := wide_read c.os s c.s_offset c.length
        (by rw [h1]; exact hfs) h2 (by rw [h1]; exact h3)
      rw [h1] at w1 w3
      obtain ⟨i1, i2, i3⟩ := ih (step 8 s c).self w1 w2 w3
      refine ⟨i1, ?_, ?_⟩
      · intro hne
        obtain ⟨m1, m2⟩ := w4 hne
        have hcr : (step 8 s c).created = false := by
          unfold Outcome.created
          unfold step
          rw [m1]
          cases (read 8 c.os s c.s_offset c.length).result <;> rfl
        have hrest : mappings_created 8 (step 8 s c).self cs = 0 :=
          i2 (by unfold step; rw [m2]; exact hne)
        rw [mappings_created, hcr, hrest]
        rfl
      · rw [mappings_created]
        cases hcr : (step 8 s c).created with
        | false =>
          simp only [Bool.false_eq_true, if_false, Nat.zero_add]
          exact i3
        | true =>
          have hreg : (step 8 s c).self.region ≠ none := by
            unfold Outcome.created at hcr
            cases hres : (step 8 s c).result with
            | error e => rw [hres] at hcr; simp at hcr
            | ok p => exact read_ok_region 8 c.os s c.s_offset c.length p hres
          rw [i2 hreg]
          simp
  obtain ⟨⟨j1, j2, j3⟩, -, j5⟩ := hrun calls (fresh file_size) rfl rfl
    (by intro r hr; simp [fresh] at hr)
  refine ⟨j1, j2, j3, ?_, ?_, j5⟩
  · intro os s_offset length p hp
    exact read_ok_region 8 os _ s_offset length p hp
  · intro r hr os s_offset length hin
    have hcov := read_covered 8 os (run 8 (fresh file_size) calls) r s_offset length hr
      (by rw [j1]; exact hfs) (by rw [j2, j3 r hr, Nat.zero_add]; exact hfs)
      (by rw [j1]; exact hin) (by rw [j2]; exact Nat.zero_le _)
      (by rw [j2, j3 r hr, Nat.zero_add]; exact hin)
    rw [hcov, j2, Nat.sub_zero]

/-- A witness of C17: `wide_calls` creates exactly one mapping, the view of
the whole file. -/
theorem C17_wide_invariant_witness :
    run 8 (fresh 52428800) wide_calls = ⟨52428800, some ⟨4096, 52428800, 0⟩, 0⟩ ∧
      mappings_created 8 (fresh 52428800) wide_calls = 1 ∧
      mappings_created 8 (fresh 52428800) wide_calls ≤ 1 :=
  ⟨by decide, by decide,
    (C17_wide_invariant 52428800 wide_calls (by decide)).2.2.2.2.2⟩

end agi
